import Mathlib

/-!
Verification development for the `parts` crate (a file-set walker driven by a
TOML configuration). Each Rust source item is embedded as a Lean definition;
theorems then settle the specification claims against those definitions.

Source layout modelled here:
- `src/config.rs`: config-source splitting, TOML config resolution and
  deserialization, glob compilation and pattern-set merging;
- `src/walk.rs`: the parallel walker's per-entry filter and output;
- `src/main.rs`: the CLI dispatch (`try_main`), in particular the `walk` arm;
- `src/error.rs`: the error enumeration.

External crates (`globset`, `regex`, `toml`, `serde`, `ignore`) are modelled
from their documented behaviour where the repository calls into them; each
such model carries a doc comment saying exactly what fragment is modelled.
-/

/-- Models `globset`'s internal `Token` type, restricted to the fragment this
development needs: literal characters, `?` (`Token::Any`) and `*`
(`Token::ZeroOrMore`). Character classes, brace alternation, escapes and the
recursive `**` forms are outside the modelled fragment (the glob parser below
rejects them). -/
inductive GlobToken
  | literal (c : Char)
  | any
  | zeroOrMore
deriving DecidableEq

/-- Matching of a translated glob against a character list, anchored at both
ends, exactly as `globset`'s `Glob::regex()` output (`^...$`) behaves under the
DEFAULT `GlobBuilder` options used by `Glob::new` in `src/config.rs`. In
particular `literal_separator` is off, so `*` translates to `.*` and `?` to
`.`: both may match the path separator `/`. A `*` consumes any suffix split,
modelled by trying every tail of the input. -/
def tokensMatch : List GlobToken → List Char → Bool
  | [], cs => cs.isEmpty
  | GlobToken.literal _ :: _, [] => false
  | GlobToken.literal c :: ts, d :: ds => c == d && tokensMatch ts ds
  | GlobToken.any :: _, [] => false
  | GlobToken.any :: ts, _ :: ds => tokensMatch ts ds
  | GlobToken.zeroOrMore :: ts, cs => cs.tails.any (fun suf => tokensMatch ts suf)

/-- Models `globset::Glob`: a parsed glob pattern (token list). -/
structure Glob where
  tokens : List GlobToken
deriving DecidableEq

/-- Models the tokenizer behind `globset::Glob::new` for the modelled fragment:
plain characters, `?` and single `*`. Returns `none` both for glob syntax
errors and for constructs outside the fragment (`**`, `[...]`, `{a,b}`,
backslash escapes). -/
def globTokens : List Char → Option (List GlobToken)
  | [] => some []
  | '[' :: _ => none
  | '{' :: _ => none
  | '}' :: _ => none
  | '\\' :: _ => none
  | '*' :: '*' :: _ => none
  | '*' :: rest => (globTokens rest).map (fun ts => GlobToken.zeroOrMore :: ts)
  | '?' :: rest => (globTokens rest).map (fun ts => GlobToken.any :: ts)
  | c :: rest => (globTokens rest).map (fun ts => GlobToken.literal c :: ts)

/-- Models `globset::Glob::new` (called from `deserialize_globs` in
`src/config.rs`), for the fragment handled by `globTokens`. -/
def globNew (s : String) : Option Glob :=
  (globTokens s.data).map Glob.mk

/-- Helper: decidable substring containment on character lists, used to give
semantics to literal regexes (`regex::bytes::RegexSet` matching is
unanchored: a pattern matches if it matches anywhere in the haystack). -/
def listContainsSub (needle hay : List Char) : Bool :=
  hay.tails.any (fun t => needle.isPrefixOf t)

/-- Models one compiled pattern inside a `regex::bytes::RegexSet`:
either the translated (anchored) regex of a glob, or a literal regex from the
config. Literal regexes are modelled for metacharacter-free patterns only:
such a regex matches a string iff its text occurs as a substring. -/
inductive Pattern
  | globRe (tokens : List GlobToken)
  | litRe (s : String)
deriving DecidableEq

/-- Matching one compiled pattern against a path string. -/
def Pattern.isMatch : Pattern → String → Bool
  | Pattern.globRe ts, s => tokensMatch ts s.data
  | Pattern.litRe l, s => listContainsSub l.data s.data

/-- Models `regex::bytes::RegexSet`: a compiled set of patterns whose
`is_match` succeeds iff at least one constituent pattern matches. -/
structure RegexSet where
  patterns : List Pattern
deriving DecidableEq

/-- Models `RegexSet::is_match`. -/
def RegexSet.is_match (rs : RegexSet) (s : String) : Bool :=
  rs.patterns.any (fun p => p.isMatch s)

/-- Models `RegexSet::empty()` (`default_regexset` in `src/config.rs`). -/
def RegexSet.empty : RegexSet := RegexSet.mk []

/-- Models `Glob::regex()`: the compiled-regex form of one glob. -/
def Glob.regex (g : Glob) : Pattern := Pattern.globRe g.tokens

/-- Models `merge_globs_and_regexes` (`src/config.rs` lines 247-257): build one
`RegexSet` over the literal regex patterns chained with the translated glob
regexes. -/
def mergeGlobsAndRegexes (globs : List Glob) (regexes : RegexSet) : RegexSet :=
  RegexSet.mk (regexes.patterns ++ globs.map Glob.regex)

/-- Helper mirroring how a part's glob list becomes a matcher when no regexes
are given: each glob string goes through `Glob::new` (`deserialize_globs`) and
the results are merged with the empty regex set (the `Config` default). -/
def compileGlobSet (globs : List String) : Option RegexSet :=
  (globs.mapM globNew).map (fun gs => mergeGlobsAndRegexes gs RegexSet.empty)

/-- Decidable equality for `Except`, so that concrete runs of the fallible
operations below can be checked by `decide`. -/
instance {ε α : Type} [DecidableEq ε] [DecidableEq α] : DecidableEq (Except ε α) := fun x y =>
  match x, y with
  | Except.ok a, Except.ok b =>
    if h : a = b then isTrue (by rw [h]) else isFalse (by intro hc; cases hc; exact h rfl)
  | Except.error e, Except.error f =>
    if h : e = f then isTrue (by rw [h]) else isFalse (by intro hc; cases hc; exact h rfl)
  | Except.ok _, Except.error _ => isFalse (by intro hc; cases hc)
  | Except.error _, Except.ok _ => isFalse (by intro hc; cases hc)

/-- Models Rust's `str::split_once(c)`: split at the FIRST occurrence of `c`,
returning the parts before and after it, or `none` when `c` does not occur. -/
def splitOnceList (c : Char) : List Char → Option (List Char × List Char)
  | [] => none
  | x :: xs =>
    if x = c then some ([], xs)
    else (splitOnceList c xs).map (fun pr => (x :: pr.1, pr.2))

/-- Models Rust's `str::split(c)` collected into a vector: every maximal run
between occurrences of `c`, keeping empty runs (so the result is never the
empty list and may contain empty strings). -/
def rustSplit (c : Char) : List Char → List (List Char)
  | [] => [[]]
  | x :: xs =>
    if x = c then [] :: rustSplit c xs
    else
      match rustSplit c xs with
      | [] => [[x]]
      | h :: t => (x :: h) :: t

/-- Models `split_path_and_keys` (`src/config.rs` lines 39-44): split on the
first `':'` (`SPLIT_PATH`); when present, the remainder is split on `'.'`
(`SPLIT_KEYS`) into the key list, otherwise the whole string is the path and
the key list is empty. -/
def splitPathAndKeys (s : String) : String × List String :=
  match splitOnceList ':' s.data with
  | some (p, rest) => (String.mk p, (rustSplit '.' rest).map String.mk)
  | none => (s, [])

/-- Models the `Error` enumeration of `src/error.rs`. `IoError` carries the
path whose read failed (standing in for the wrapped `std::io::Error`);
`TomlDecode` carries the decode message (standing in for `toml::de::Error`,
which covers BOTH structural TOML parse failures and serde schema
violations, since both arrive through the same `#[from]` conversion). -/
inductive Error
  | IoError (path : String)
  | TomlDecode (msg : String)
  | KeysNotFound (keys : String) (path : String)
  | ValueIsNotTable (path : String)
  | NoConfigFileFound
  | ConfigFileDoesNotExist (value : String)
  | UnknownPart (part : String)
deriving DecidableEq

/-- Models a parsed `toml::Value` tree (the variants the config layer can
encounter: tables, strings, booleans, integers and arrays). -/
inductive Toml
  | table (kvs : List (String × Toml))
  | str (s : String)
  | boolean (b : Bool)
  | integer (n : Int)
  | array (vs : List Toml)

/-- Models the filesystem seen by the config resolver: an association from
path to file content, where content is already represented by its TOML parse
outcome — `some (some t)` is a file parsing to `t`, `some none` is an existing
file that is NOT structurally valid TOML, and a missing path reads as an IO
error. -/
abbrev FileSystem := List (String × Option Toml)

/-- Models `std::fs::read_to_string` composed with nothing else: look the path
up in the modelled filesystem. -/
def fsRead (fs : FileSystem) (path : String) : Option (Option Toml) :=
  List.lookup path fs

/-- Models `regex::bytes::Regex` compilation (via `serde_regex`) for the
metacharacter-free fragment: such a pattern matches as a literal substring.
Patterns containing regex metacharacters are outside the modelled fragment
and map to `none`. -/
def regexNew (s : String) : Option Pattern :=
  if s.data.any (fun c =>
      c = '*' || c = '+' || c = '?' || c = '(' || c = ')' || c = '[' || c = ']' ||
      c = '{' || c = '}' || c = '|' || c = '^' || c = '$' || c = '\\' || c = '.')
  then none
  else some (Pattern.litRe s)

/-- Models the `Config` struct of `src/config.rs` (one named part): strict
schema with defaults `directory = "./"`, `ignore_hidden = true`,
`use_gitignore = true`, empty regex sets and empty glob lists. -/
structure Config where
  directory : String
  ignore_hidden : Bool
  use_gitignore : Bool
  regexes : RegexSet
  globs : List Glob
  exclude_regexes : RegexSet
  exclude_globs : List Glob
deriving DecidableEq

/-- Models the `ConfigFile` struct of `src/config.rs`: the `#[serde(skip)]`
origin string, the optional `default` part name, and the `#[serde(flatten)]`
map from part name to part. The `HashMap` is modelled as an association list
with the unique keys a TOML table guarantees. -/
structure ConfigFile where
  config_file : String
  default : Option String
  configs : List (String × Config)
deriving DecidableEq

/-- Deserialize the `globs` field: absent means `[]` (serde `default`), else an
array of strings each compiled by `Glob::new` (`deserialize_globs`,
`src/config.rs` lines 59-67); a non-string element, non-array value or glob
compilation failure is a deserialization error. -/
def deGlobList : Option Toml → Except String (List Glob)
  | none => Except.ok []
  | some (Toml.array vs) =>
    vs.mapM (fun v =>
      match v with
      | Toml.str s =>
        match globNew s with
        | some g => Except.ok g
        | none => Except.error "invalid glob"
      | _ => Except.error "invalid type: expected a string")
  | some _ => Except.error "invalid type: expected an array"

/-- Deserialize a regex-set field: absent means `RegexSet::empty()`
(`default_regexset`), else an array of strings each compiled as a regex
(`serde_regex`). -/
def deRegexSet : Option Toml → Except String RegexSet
  | none => Except.ok RegexSet.empty
  | some (Toml.array vs) => do
    let ps ← vs.mapM (fun v =>
      match v with
      | Toml.str s =>
        match regexNew s with
        | some p => Except.ok p
        | none => Except.error "invalid regex"
      | _ => Except.error "invalid type: expected a string")
    Except.ok (RegexSet.mk ps)
  | some _ => Except.error "invalid type: expected an array"

/-- The field names the `Config` schema accepts; any other key in a part table
is rejected (`#[serde(deny_unknown_fields)]`). -/
def knownConfigFields : List String :=
  ["directory", "ignore_hidden", "use_gitignore", "regexes", "globs",
   "exclude_regexes", "exclude_globs"]

/-- Models serde deserialization of `Config` from a TOML value: the value must
be a table, unknown fields are an error, each known field has the default
recorded in the struct when absent and a type check when present. -/
def deserializeConfig : Toml → Except String Config
  | Toml.table kvs =>
    if kvs.any (fun kv => !(knownConfigFields.contains kv.1)) then
      Except.error "unknown field"
    else do
      let directory ←
        match List.lookup "directory" kvs with
        | none => Except.ok "./"
        | some (Toml.str s) => Except.ok s
        | some _ => Except.error "invalid type for field directory"
      let ignore_hidden ←
        match List.lookup "ignore_hidden" kvs with
        | none => Except.ok true
        | some (Toml.boolean b) => Except.ok b
        | some _ => Except.error "invalid type for field ignore_hidden"
      let use_gitignore ←
        match List.lookup "use_gitignore" kvs with
        | none => Except.ok true
        | some (Toml.boolean b) => Except.ok b
        | some _ => Except.error "invalid type for field use_gitignore"
      let regexes ← deRegexSet (List.lookup "regexes" kvs)
      let globs ← deGlobList (List.lookup "globs" kvs)
      let exclude_regexes ← deRegexSet (List.lookup "exclude_regexes" kvs)
      let exclude_globs ← deGlobList (List.lookup "exclude_globs" kvs)
      Except.ok (Config.mk directory ignore_hidden use_gitignore
        regexes globs exclude_regexes exclude_globs)
  | _ => Except.error "invalid type: expected a table"

/-- Models serde deserialization of `ConfigFile` from a TOML value: the
`default` key feeds the optional `default` field (must be a string when
present), every remaining key is a part name whose value must deserialize as a
`Config` (the `#[serde(flatten)]` map); `config_file` is `#[serde(skip)]` and
comes out empty. -/
def deserializeConfigFile (t : Toml) : Except String ConfigFile :=
  match t with
  | Toml.table kvs => do
    let dflt ←
      match List.lookup "default" kvs with
      | none => Except.ok none
      | some (Toml.str s) => Except.ok (some s)
      | some _ => Except.error "invalid type for field default"
    let rest := kvs.filter (fun kv => kv.1 ≠ "default")
    let configs ← rest.mapM (fun kv => do
      let c ← deserializeConfig kv.2
      Except.ok (kv.1, c))
    Except.ok (ConfigFile.mk "" dflt configs)
  | _ => Except.error "invalid type: expected a table"

/-- Models the key-descent loop of `try_parse_config_file` (`src/config.rs`
lines 84-98): descend one key per level; a table missing the key fails with
`KeysNotFound` (carrying that single key and the path), a non-table value
fails with `ValueIsNotTable`. -/
def descendKeys (path : String) : Toml → List String → Except Error Toml
  | t, [] => Except.ok t
  | Toml.table kvs, k :: ks =>
    match List.lookup k kvs with
    | none => Except.error (Error.KeysNotFound k path)
    | some v => descendKeys path v ks
  | _, _ :: _ => Except.error (Error.ValueIsNotTable path)

/-- Models `try_parse_config_file` (`src/config.rs` lines 74-103): read the
file (IO error when missing), then either deserialize the whole document
(empty key list) or parse it as a TOML value, descend the keys and deserialize
the sub-value. A structural parse failure and a serde deserialization failure
both surface as `Error::TomlDecode` (`toml::de::Error` in the source). The
debug `println!` of the nested value (`src/config.rs` line 100) writes to
stdout and is not part of the returned value. -/
def tryParseConfigFile (fs : FileSystem) (path : String) (keys : List String) :
    Except Error ConfigFile :=
  match fsRead fs path with
  | none => Except.error (Error.IoError path)
  | some content =>
    match keys with
    | [] =>
      match content with
      | none => Except.error (Error.TomlDecode "invalid TOML")
      | some t =>
        match deserializeConfigFile t with
        | Except.ok cf => Except.ok cf
        | Except.error m => Except.error (Error.TomlDecode m)
    | _ :: _ =>
      match content with
      | none => Except.error (Error.TomlDecode "invalid TOML")
      | some t =>
        match descendKeys path t keys with
        | Except.error e => Except.error e
        | Except.ok sub =>
          match deserializeConfigFile sub with
          | Except.ok cf => Except.ok cf
          | Except.error m => Except.error (Error.TomlDecode m)

/-- Models `POSSIBLE_CONFIG_PATHS` (`src/config.rs` lines 10-17): the fixed,
ordered discovery candidate list. -/
def POSSIBLE_CONFIG_PATHS : List String :=
  ["parts.toml", ".parts.toml", "Cargo.toml:metadata.parts", "pyproject.toml:tool.parts"]

/-- One discovery attempt: split the candidate string and run
`try_parse_config_file` on it (the body of the loop in
`try_find_config_file`). -/
def tryParseCandidate (fs : FileSystem) (s : String) : Except Error ConfigFile :=
  let pk := splitPathAndKeys s
  tryParseConfigFile fs pk.1 pk.2

/-- Models the loop of `try_find_config_file` (`src/config.rs` lines 105-123)
over an explicit candidate list: the first successful candidate wins and its
full source string becomes `config_file`; an `Error::TomlDecode` failure is
returned immediately; any other failure is logged (`warn!`) and the next
candidate is tried; exhaustion yields `Error::NoConfigFileFound`. -/
def tryFindFrom (fs : FileSystem) : List String → Except Error ConfigFile
  | [] => Except.error Error.NoConfigFileFound
  | s :: rest =>
    match tryParseCandidate fs s with
    | Except.ok cf => Except.ok { cf with config_file := s }
    | Except.error e =>
      match e with
      | Error.TomlDecode m => Except.error (Error.TomlDecode m)
      | _ => tryFindFrom fs rest

/-- Models `try_find_config_file`: run the discovery loop over
`POSSIBLE_CONFIG_PATHS`. -/
def tryFindConfigFile (fs : FileSystem) : Except Error ConfigFile :=
  tryFindFrom fs POSSIBLE_CONFIG_PATHS

/-- Models `ConfigFile::get_default_config` (`src/config.rs` lines 143-148):
look the `default` name up in the part map, `none` when no default is set. -/
def ConfigFile.get_default_config (cf : ConfigFile) : Option Config :=
  match cf.default with
  | some name => List.lookup name cf.configs
  | none => none

/-- Models `ConfigFile::get` (`src/config.rs` lines 135-141): a present name is
looked up directly (no default fallback); an absent name falls back to the
default part. -/
def ConfigFile.get (cf : ConfigFile) (key : Option String) : Option Config :=
  match key with
  | some k => List.lookup k cf.configs
  | none => cf.get_default_config

/-- Models the file-vs-directory kind of a visited filesystem entry, as
answered by `path.is_file()` for the entry's path. -/
inductive EntryKind
  | file
  | dir
  | other
deriving DecidableEq

/-- Models `ignore::DirEntry` as far as the walker consumes it: the entry's
path (the lossless UTF-8 view the code matches and prints) and its kind. -/
structure DirEntry where
  path : String
  kind : EntryKind
deriving DecidableEq

/-- Models the `Walker` struct of `src/walk.rs`. -/
structure Walker where
  directory : String
  ignore_hidden : Bool
  use_gitignore : Bool
  include_set : RegexSet
  exclude : RegexSet
deriving DecidableEq

/-- Models `impl From<Config> for Walker` (`src/walk.rs` lines 27-42): the
include set merges the part's globs with its regexes, the exclude set merges
the exclude globs with the exclude regexes. -/
def Walker.fromConfig (config : Config) : Walker :=
  Walker.mk config.directory config.ignore_hidden config.use_gitignore
    (mergeGlobsAndRegexes config.globs config.regexes)
    (mergeGlobsAndRegexes config.exclude_globs config.exclude_regexes)

/-- Helper modelling `Path::starts_with("./")` on the walker's string-typed
paths: a literal leading `"./"`. -/
def hasDotSlash (p : String) : Bool :=
  "./".data.isPrefixOf p.data

/-- Models the path adjustment at `src/walk.rs` lines 62-66: a path that
starts with `"./"` has that prefix stripped (`strip_prefix("./")`, i.e. the
first two characters dropped) before any further use; other paths are used
unchanged. -/
def entryPath (de : DirEntry) : String :=
  if hasDotSlash de.path then String.mk (de.path.data.drop 2) else de.path

/-- Models the `filter_map` closure of the consumer thread (`src/walk.rs`
lines 61-74): emit the (stripped) path exactly when the entry is a regular
file, the include set matches it and the exclude set does not. -/
def processEntry (inc exc : RegexSet) (de : DirEntry) : Option String :=
  if de.kind == EntryKind.file && inc.is_match (entryPath de) && !exc.is_match (entryPath de) then
    some (entryPath de)
  else
    none

/-- Models `Walker::walk` (`src/walk.rs` lines 44-92) applied to one
interleaving of the parallel traversal, given as the list of per-entry results
the traversal service produces. Each producer runs
`tx.send(result.unwrap())`, so the FIRST `Err` result panics: the walk aborts
and the consumer's buffered output is never printed (`buffer_writer.print`
runs only after a successful join), modelled by returning that error with no
output. With only `Ok` results, the consumer prints every path the filter
keeps, in channel order. -/
def Walker.walk (w : Walker) : List (Except String DirEntry) → Except String (List String)
  | [] => Except.ok []
  | r :: rest =>
    match r with
    | Except.error e => Except.error e
    | Except.ok de =>
      match w.walk rest with
      | Except.error e => Except.error e
      | Except.ok out =>
        match processEntry w.include_set w.exclude de with
        | some p => Except.ok (p :: out)
        | none => Except.ok out

/-- Models the outcome of one CLI invocation: normal exit with a code and the
stdout lines the dispatched action wrote, or a panic (`unwrap` failure). -/
inductive CliOutcome
  | exited (code : Nat) (stdout : List String)
  | crashed
deriving DecidableEq

/-- Models `try_main`/`main` (`src/main.rs` lines 149-223) for a `walk`
invocation: resolve the config document (explicit `--config` source or
discovery), then execute the `Action::Walk` arm (lines 182-185). That arm
looks the named part up with `.get(Some(part)).unwrap()` — a panic when the
part is absent — and then does NOTHING with it: `mod walk` (line 10) and the
walker construction (line 184) are commented out, so no walker runs, nothing
is written for the walk, `--sorted` is never read, and the process exits 0.
Any resolution error is printed by `main` and exits with code 2. -/
def tryMainWalk (fs : FileSystem) (config : Option String) (part : String)
    (sorted : Bool) : CliOutcome :=
  let cfRes :=
    match config with
    | some c =>
      let pk := splitPathAndKeys c
      tryParseConfigFile fs pk.1 pk.2
    | none => tryFindConfigFile fs
  match cfRes with
  | Except.error _ => CliOutcome.exited 2 []
  | Except.ok cf =>
    match cf.get (some part) with
    | none => CliOutcome.crashed
    | some _ =>
      let _ := sorted
      CliOutcome.exited 0 []

/-- Concrete filesystems and parts used by the claim theorems below. -/
def configDefaults : Config :=
  Config.mk "./" true true RegexSet.empty [] RegexSet.empty []

/-- A part whose directory differs from the defaults, to keep the two parts of
the C7 example document distinguishable. -/
def configSrcDir : Config :=
  Config.mk "src" true true RegexSet.empty [] RegexSet.empty []

/-- Helper: a glob `*` always matches — its translated regex is `^.*$` under
the default (separator-crossing) options. -/
theorem tokensMatch_star (cs : List Char) : tokensMatch [GlobToken.zeroOrMore] cs = true := by
  have h : ([] : List Char) ∈ cs.tails := by
    rw [List.mem_tails]
    exact List.nil_suffix
  unfold tokensMatch
  rw [List.any_eq_true]
  exact ⟨[], h, rfl⟩

/-- C3 counterexample: the claim says the compiled matcher for `["*.rs"]`
does not match `"sub/main.rs"`, but `Glob::new` uses the default
`GlobBuilder` options, where `*` also matches path separators, so it does. -/
theorem c3_counterexample :
    (compileGlobSet ["*.rs"]).map (fun rs => rs.is_match "sub/main.rs") = some true := by
  decide

/-- C3 (amended): in a compiled pattern set, a glob's `*` wildcard matches any
run of characters INCLUDING path separators (default `globset` options, no
`literal_separator`): for `["*.rs"]` the matcher matches `"main.rs"` and
`"sub/main.rs"` but not `"main.rs.bak"`; for `["src/*.rs"]` it matches both
`"src/main.rs"` and `"src/sub/main.rs"`; and the lone token `*` matches every
string. -/
theorem c3_amended :
    (compileGlobSet ["*.rs"]).map (fun rs =>
        (rs.is_match "main.rs", rs.is_match "main.rs.bak", rs.is_match "sub/main.rs")) =
      some (true, false, true)
    ∧ (compileGlobSet ["src/*.rs"]).map (fun rs =>
        (rs.is_match "src/main.rs", rs.is_match "src/sub/main.rs")) = some (true, true)
    ∧ ∀ s : String, tokensMatch [GlobToken.zeroOrMore] s.data = true :=
  ⟨by decide, by decide, fun s => tokensMatch_star s.data⟩

/-- C5: the composite matcher built by `merge_globs_and_regexes` matches a
string iff at least one translated glob regex or one literal regex matches it,
and the merge of an empty glob list with the empty regex set matches
nothing. -/
theorem c5 (globs : List Glob) (regexes : RegexSet) (s : String) :
    ((mergeGlobsAndRegexes globs regexes).is_match s = true ↔
      (∃ g ∈ globs, (Glob.regex g).isMatch s = true) ∨
      (∃ p ∈ regexes.patterns, p.isMatch s = true))
    ∧ (mergeGlobsAndRegexes [] RegexSet.empty).is_match s = false := by
  constructor
  · simp only [mergeGlobsAndRegexes, RegexSet.is_match, List.any_append, Bool.or_eq_true,
      List.any_eq_true, List.mem_map]
    constructor
    · rintro (⟨p, hp, hm⟩ | ⟨p, ⟨g, hg, hgp⟩, hm⟩)
      · exact Or.inr ⟨p, hp, hm⟩
      · exact Or.inl ⟨g, hg, hgp ▸ hm⟩
    · rintro (⟨g, hg, hm⟩ | ⟨p, hp, hm⟩)
      · exact Or.inr ⟨Glob.regex g, ⟨g, hg, rfl⟩, hm⟩
      · exact Or.inl ⟨p, hp, hm⟩
  · rfl

/-- Witness for C5: the empty-merge clause evaluated at a concrete string. -/
theorem c5_witness : (mergeGlobsAndRegexes [] RegexSet.empty).is_match "x" = false :=
  (c5 [] RegexSet.empty "x").2

/-- Helper: `split_once` returns `none` when the separator does not occur. -/
theorem splitOnceList_of_not_mem (c : Char) (l : List Char) (h : c ∉ l) :
    splitOnceList c l = none := by
  induction l with
  | nil => rfl
  | cons x xs ih =>
    have hx : ¬x = c := fun hc => h (hc ▸ List.mem_cons_self x xs)
    have hxs : c ∉ xs := fun hc => h (List.mem_cons_of_mem x hc)
    simp [splitOnceList, hx, ih hxs]

/-- Helper: `split_once` splits at the first separator occurrence. -/
theorem splitOnceList_append (c : Char) (a b : List Char) (h : c ∉ a) :
    splitOnceList c (a ++ c :: b) = some (a, b) := by
  induction a with
  | nil => simp [splitOnceList]
  | cons x xs ih =>
    have hx : ¬x = c := fun hc => h (hc ▸ List.mem_cons_self x xs)
    have hxs : c ∉ xs := fun hc => h (List.mem_cons_of_mem x hc)
    simp [splitOnceList, hx, ih hxs]

/-- C6 counterexample: the claim says every returned key is a non-empty
string, but splitting `"a.toml:"` returns the key list `[""]`, which contains
the empty string (Rust's `split` keeps empty runs). -/
theorem c6_counterexample : "" ∈ (splitPathAndKeys "a.toml:").2 := by decide

/-- C6 (amended): `split_path_and_keys` splits on the first `':'` only,
returning everything before it as the path and the remainder split on `'.'`
as the keys; the keys may include EMPTY strings (for instance when the input
ends in `':'` or has adjacent dots). Without a `':'` the whole input is the
path and the key list is empty; `split("a.toml:x.y")` gives
`("a.toml", ["x","y"])` and `split(".parts.toml")` gives
`(".parts.toml", [])`. -/
theorem c6_amended :
    (∀ a b : String, ':' ∉ a.data →
        splitPathAndKeys (a ++ ":" ++ b) = (a, (rustSplit '.' b.data).map String.mk))
    ∧ (∀ s : String, ':' ∉ s.data → splitPathAndKeys s = (s, []))
    ∧ splitPathAndKeys "a.toml:x.y" = ("a.toml", ["x", "y"])
    ∧ splitPathAndKeys ".parts.toml" = (".parts.toml", [])
    ∧ splitPathAndKeys "a.toml:" = ("a.toml", [""]) := by
  refine ⟨?_, ?_, by decide, by decide, by decide⟩
  · intro a b h
    have hdata : (a ++ ":" ++ b).data = a.data ++ ':' :: b.data := by
      simp [String.data_append]
    rw [splitPathAndKeys, hdata, splitOnceList_append ':' a.data b.data h]
  · intro s h
    rw [splitPathAndKeys, splitOnceList_of_not_mem ':' s.data h]

/-- Witness for C6 (amended): the no-colon case applied to a concrete
string. -/
theorem c6_witness : splitPathAndKeys "b.toml" = ("b.toml", []) :=
  c6_amended.2.1 "b.toml" (by decide)

/-- The example document of C7: default `"a"`, parts `"a"` and `"b"`. -/
def configFileC7 : ConfigFile :=
  ConfigFile.mk "parts.toml" (some "a") [("a", configDefaults), ("b", configSrcDir)]

/-- C7: `get(Some(k))` looks `k` up directly and never falls back to the
default; `get(None)` returns the part named by `default`, or `none` when no
default is set or the default names a nonexistent part; on the example
document, `get(None)` equals `get(Some("a"))` and `get(Some("missing"))` is
`none`. -/
theorem c7 :
    (∀ (cf : ConfigFile) (k : String), cf.get (some k) = List.lookup k cf.configs)
    ∧ (∀ cf : ConfigFile, cf.get none =
        (match cf.default with
         | some name => List.lookup name cf.configs
         | none => none))
    ∧ (∀ (cf : ConfigFile) (k : String),
        List.lookup k cf.configs = none → cf.get (some k) = none)
    ∧ (configFileC7.get none = configFileC7.get (some "a")
       ∧ (configFileC7.get (some "a")).isSome = true
       ∧ configFileC7.get (some "missing") = none) := by
  refine ⟨fun cf k => rfl, fun cf => rfl, fun cf k h => ?_, by decide, by decide, by decide⟩
  rw [ConfigFile.get]
  exact h

/-- Witness for C7: the no-fallback clause applied to the example document,
whose part map does not contain `"missing"` even though a default is set. -/
theorem c7_witness : configFileC7.get (some "missing") = none :=
  c7.2.2.1 configFileC7 "missing" (by decide)

/-- Helper: the filter closure emits `p` exactly when the entry is a regular
file whose stripped path is `p`, the include set matches `p` and the exclude
set does not. -/
theorem processEntry_eq_some (inc exc : RegexSet) (de : DirEntry) (p : String) :
    processEntry inc exc de = some p ↔
      de.kind = EntryKind.file ∧ entryPath de = p ∧
      inc.is_match (entryPath de) = true ∧ exc.is_match (entryPath de) = false := by
  unfold processEntry
  by_cases hc : (de.kind == EntryKind.file && inc.is_match (entryPath de) &&
      !exc.is_match (entryPath de)) = true
  · rw [if_pos hc]
    simp only [Bool.and_eq_true, beq_iff_eq, Bool.not_eq_true'] at hc
    obtain ⟨⟨hk, hi⟩, he⟩ := hc
    constructor
    · intro h
      exact ⟨hk, Option.some.inj h, hi, he⟩
    · rintro ⟨_, rfl, _, _⟩
      rfl
  · rw [if_neg hc]
    constructor
    · intro h
      exact absurd h (by simp)
    · rintro ⟨hk, _, hi, he⟩
      refine absurd ?_ hc
      simp [hk, hi, he]

/-- Helper: with an error-free traversal, the walk succeeds and the printed
lines are exactly the filter's keeps, in channel order. -/
theorem walk_map_ok (w : Walker) (des : List DirEntry) :
    w.walk (des.map Except.ok) =
      Except.ok (des.filterMap (processEntry w.include_set w.exclude)) := by
  induction des with
  | nil => rfl
  | cons d ds ih =>
    simp only [List.map_cons, Walker.walk, ih, List.filterMap_cons]
    cases h : processEntry w.include_set w.exclude d <;> simp [h]

/-- C2: over an error-free traversal, a path is emitted iff some visited entry
is a regular file whose (stripped) path is that path, the include set matches
it and the exclude set does not; in particular a path matched by both the
include and the exclude set is never emitted. -/
theorem c2 (w : Walker) (des : List DirEntry) (out : List String) (p : String)
    (h : w.walk (des.map Except.ok) = Except.ok out) :
    (p ∈ out ↔ ∃ de ∈ des, de.kind = EntryKind.file ∧ entryPath de = p ∧
        w.include_set.is_match p = true ∧ w.exclude.is_match p = false)
    ∧ (w.include_set.is_match p = true → w.exclude.is_match p = true → p ∉ out) := by
  have hout : out = des.filterMap (processEntry w.include_set w.exclude) := by
    have h2 := walk_map_ok w des
    rw [h] at h2
    exact Except.ok.inj h2
  subst hout
  have hmem : ∀ q : String, q ∈ des.filterMap (processEntry w.include_set w.exclude) ↔
      ∃ de ∈ des, de.kind = EntryKind.file ∧ entryPath de = q ∧
        w.include_set.is_match q = true ∧ w.exclude.is_match q = false := by
    intro q
    rw [List.mem_filterMap]
    constructor
    · rintro ⟨de, hde, hsome⟩
      rw [processEntry_eq_some] at hsome
      obtain ⟨hk, hp, hi, he⟩ := hsome
      exact ⟨de, hde, hk, hp, hp ▸ hi, hp ▸ he⟩
    · rintro ⟨de, hde, hk, hp, hi, he⟩
      exact ⟨de, hde, (processEntry_eq_some _ _ _ _).mpr ⟨hk, hp, hp ▸ hi, hp ▸ he⟩⟩
  refine ⟨hmem p, fun hi he hin => ?_⟩
  obtain ⟨de, _, _, _, _, hef⟩ := (hmem p).mp hin
  rw [he] at hef
  exact absurd hef (by decide)

/-- A catch-all walker used in concrete walk evaluations: include set `*`,
empty exclude set. -/
def walkerStar : Walker :=
  Walker.mk "./" true true (RegexSet.mk [Pattern.globRe [GlobToken.zeroOrMore]]) RegexSet.empty

/-- A walker whose include set is `*` and whose exclude set is `*.tmp`. -/
def walkerNoTmp : Walker :=
  Walker.mk "./" true true (RegexSet.mk [Pattern.globRe [GlobToken.zeroOrMore]])
    (RegexSet.mk [Pattern.globRe [GlobToken.zeroOrMore, GlobToken.literal '.',
      GlobToken.literal 't', GlobToken.literal 'm', GlobToken.literal 'p']])

/-- Witness for C2: a path matching both the include and the exclude set is
not emitted by the concrete walk that visits it. -/
theorem c2_witness : "a.tmp" ∉ ([] : List String) :=
  (c2 walkerNoTmp [DirEntry.mk "./a.tmp" EntryKind.file] [] "a.tmp" (by decide)).2
    (by decide) (by decide)

/-- C10: the walker strips one leading `"./"` from a visited path before both
matching and emission, and leaves other paths unchanged; concretely, with the
include set compiled from `["src/*.rs"]` the entry `"./src/main.rs"` is tested
against (and emitted as) `"src/main.rs"`. -/
theorem c10 (inc exc : RegexSet) (de : DirEntry) :
    (hasDotSlash de.path = true → entryPath de = String.mk (de.path.data.drop 2))
    ∧ (hasDotSlash de.path = false → entryPath de = de.path)
    ∧ (∀ p, processEntry inc exc de = some p → p = entryPath de)
    ∧ ((processEntry inc exc de).isSome = true ↔
        de.kind = EntryKind.file ∧ inc.is_match (entryPath de) = true ∧
        exc.is_match (entryPath de) = false)
    ∧ (compileGlobSet ["src/*.rs"]).map (fun rs =>
        (processEntry rs RegexSet.empty (DirEntry.mk "./src/main.rs" EntryKind.file),
         rs.is_match "./src/main.rs")) =
      some (some "src/main.rs", false) := by
  refine ⟨fun h => ?_, fun h => ?_, fun p hp => ?_, ?_, by decide⟩
  · rw [entryPath, if_pos h]
  · rw [entryPath, if_neg (by simp [h])]
  · exact ((processEntry_eq_some inc exc de p).mp hp).2.1.symm
  · rw [Option.isSome_iff_exists]
    constructor
    · rintro ⟨p, hp⟩
      obtain ⟨hk, hp2, hi, he⟩ := (processEntry_eq_some inc exc de p).mp hp
      exact ⟨hk, hi, he⟩
    · rintro ⟨hk, hi, he⟩
      exact ⟨entryPath de, (processEntry_eq_some inc exc de _).mpr ⟨hk, rfl, hi, he⟩⟩

/-- Witness for C10: the stripping clause applied to a concrete entry. -/
theorem c10_witness : entryPath (DirEntry.mk "./x.rs" EntryKind.file) = String.mk "x.rs".data :=
  (c10 RegexSet.empty RegexSet.empty (DirEntry.mk "./x.rs" EntryKind.file)).1 (by decide)

/-- C8 evaluation at the failing input: a per-entry traversal failure is
unwrapped (`tx.send(result.unwrap())`, `src/walk.rs` line 84), so the walk
aborts with nothing printed — even though the same walker emits the matching
file when the failure is absent. -/
theorem c8_code_eval :
    walkerStar.walk [Except.error "permission denied",
      Except.ok (DirEntry.mk "./a.rs" EntryKind.file)] = Except.error "permission denied"
    ∧ walkerStar.walk [Except.ok (DirEntry.mk "./a.rs" EntryKind.file)] =
        Except.ok ["a.rs"] := by
  exact ⟨rfl, by decide⟩

/-- The C1 concrete project: a `parts.toml` defining default part `"a"` with
the catch-all include glob `*`. -/
def fsC1 : FileSystem :=
  [("parts.toml", some (Toml.table [("default", Toml.str "a"),
    ("a", Toml.table [("globs", Toml.array [Toml.str "*"])])]))]

/-- C1 evaluation at the failing input: invoking `walk a` against `fsC1`
resolves the part and exits 0 having written NOTHING — the `Action::Walk` arm
discards the part (`src/main.rs` lines 182-185; `mod walk` is commented out) —
even though the walker built from that very part emits `"main.rs"` on a
traversal that visits it. -/
theorem c1_code_eval :
    tryMainWalk fsC1 none "a" false = CliOutcome.exited 0 []
    ∧ ((tryFindConfigFile fsC1).toOption.bind (fun cf => cf.get (some "a"))).map
        (fun c => (Walker.fromConfig c).walk
          [Except.ok (DirEntry.mk "./main.rs" EntryKind.file)]) =
      some (Except.ok ["main.rs"]) := by
  exact ⟨by decide, by decide⟩

/-- The C4 counterexample filesystem: the first discovery candidate exists and
is structurally valid TOML but violates the schema (`default` is an integer);
the second candidate is fully valid. -/
def fsBadSchema : FileSystem :=
  [("parts.toml", some (Toml.table [("default", Toml.integer 5)])),
   (".parts.toml", some (Toml.table [("default", Toml.str "a"), ("a", Toml.table [])]))]

/-- Helper: the discovery loop skips a candidate exactly when its failure is
not `Error::TomlDecode`. -/
theorem tryFindFrom_skip (fs : FileSystem) (c : String) (rest : List String) (e : Error)
    (h1 : tryParseCandidate fs c = Except.error e) (h2 : ∀ m, e ≠ Error.TomlDecode m) :
    tryFindFrom fs (c :: rest) = tryFindFrom fs rest := by
  cases e
  case TomlDecode m => exact absurd rfl (h2 m)
  all_goals simp only [tryFindFrom, h1]

/-- C4 counterexample: a schema violation in a discovery candidate is NOT
soft — it surfaces as `Error::TomlDecode` and aborts discovery immediately,
even though the next candidate would have succeeded. -/
theorem c4_counterexample :
    tryFindConfigFile fsBadSchema =
      Except.error (Error.TomlDecode "invalid type for field default")
    ∧ (tryParseCandidate fsBadSchema ".parts.toml").isOk = true := by
  exact ⟨by decide, by decide⟩

/-- C4 (amended): during discovery, a candidate failing with anything other
than `Error::TomlDecode` (a missing file, a missing key, a non-table value) is
logged and skipped; any `Error::TomlDecode` failure — which covers BOTH a
structurally invalid TOML document AND a schema violation (unknown field,
wrong value type), since both arrive as `toml::de::Error` — aborts discovery
immediately; if no candidate succeeds the result is `NoConfigFileFound`. -/
theorem c4_amended :
    (∀ (fs : FileSystem) (c : String) (rest : List String) (e : Error),
        tryParseCandidate fs c = Except.error e → (∀ m, e ≠ Error.TomlDecode m) →
        tryFindFrom fs (c :: rest) = tryFindFrom fs rest)
    ∧ (∀ (fs : FileSystem) (c : String) (rest : List String) (m : String),
        tryParseCandidate fs c = Except.error (Error.TomlDecode m) →
        tryFindFrom fs (c :: rest) = Except.error (Error.TomlDecode m))
    ∧ (∀ fs : FileSystem, tryFindFrom fs [] = Except.error Error.NoConfigFileFound)
    ∧ (∀ (fs : FileSystem) (path : String) (t : Toml) (m : String),
        fsRead fs path = some (some t) → deserializeConfigFile t = Except.error m →
        tryParseConfigFile fs path [] = Except.error (Error.TomlDecode m)) := by
  refine ⟨tryFindFrom_skip, ?_, fun fs => rfl, ?_⟩
  · intro fs c rest m h1
    simp only [tryFindFrom, h1]
  · intro fs path t m h1 h2
    simp only [tryParseConfigFile, h1, h2]

/-- Witness for C4 (amended): a missing-file failure on a concrete candidate
is skipped. -/
theorem c4_witness : tryFindFrom [] ["nope.toml"] = tryFindFrom [] [] :=
  c4_amended.1 [] "nope.toml" [] (Error.IoError "nope.toml") (by decide)
    (fun _ h => Error.noConfusion h)

/-- A discovery candidate fails softly when its parse attempt returns an error
other than `Error::TomlDecode` (the loop's `warn!`-and-continue branch). -/
def softFails (fs : FileSystem) (t : String) : Prop :=
  ∃ e, tryParseCandidate fs t = Except.error e ∧ ∀ m, e ≠ Error.TomlDecode m

/-- The C9 concrete project: only `Cargo.toml` exists, with a valid
`metadata.parts` nested table. -/
def fsCargo : FileSystem :=
  [("Cargo.toml", some (Toml.table [("metadata", Toml.table [("parts",
    Toml.table [("default", Toml.str "a"), ("a", Toml.table [])])])]))]

/-- C9: discovery tries the candidates in exactly the order `parts.toml`,
`.parts.toml`, `Cargo.toml:metadata.parts`, `pyproject.toml:tool.parts`; the
first successfully parsing candidate wins and its full source string becomes
the document's origin; concretely, in a project containing only a valid
`Cargo.toml:metadata.parts`, discovery succeeds with that origin. -/
theorem c9 :
    POSSIBLE_CONFIG_PATHS =
      ["parts.toml", ".parts.toml", "Cargo.toml:metadata.parts", "pyproject.toml:tool.parts"]
    ∧ (∀ (fs : FileSystem) (pre : List String) (s : String) (rest : List String)
         (cf : ConfigFile),
        (∀ t ∈ pre, softFails fs t) → tryParseCandidate fs s = Except.ok cf →
        tryFindFrom fs (pre ++ s :: rest) = Except.ok { cf with config_file := s })
    ∧ (tryFindConfigFile fsCargo).toOption.map ConfigFile.config_file =
        some "Cargo.toml:metadata.parts" := by
  refine ⟨rfl, ?_, by decide⟩
  intro fs pre s rest cf hpre hs
  induction pre with
  | nil => simp [tryFindFrom, hs]
  | cons t ts ih =>
    obtain ⟨e, he, hne⟩ := hpre t (List.mem_cons_self t ts)
    rw [List.cons_append, tryFindFrom_skip fs t (ts ++ s :: rest) e he hne]
    exact ih (fun u hu => hpre u (List.mem_cons_of_mem t hu))

/-- The C9 witness filesystem: a valid bare `parts.toml`. -/
def fsSimple : FileSystem :=
  [("parts.toml", some (Toml.table [("default", Toml.str "a"), ("a", Toml.table [])]))]

/-- The document `fsSimple` deserializes to (origin still unset). -/
def configFileSimple : ConfigFile :=
  ConfigFile.mk "" (some "a") [("a", configDefaults)]

/-- Witness for C9: the first-success clause applied with an empty skipped
prefix to a concrete filesystem. -/
theorem c9_witness :
    tryFindFrom fsSimple ([] ++ "parts.toml" :: [".parts.toml"]) =
      Except.ok { configFileSimple with config_file := "parts.toml" } :=
  c9.2.1 fsSimple [] "parts.toml" [".parts.toml"] configFileSimple
    (fun t ht => absurd ht (List.not_mem_nil t)) (by decide)
